import Mathlib

/-!
# Verification of `turbopack-create-test-app`'s `TestAppBuilder::build`

A shallow embedding of `crates/turbopack-create-test-app/src/test_app_builder.rs`.

Modelling conventions:
* `usize` becomes `Nat`.  Checked (panicking) subtraction is modelled by
  `checkedSub` returning `Option Nat`; Rust's `saturating_sub` is `Nat`
  subtraction (which already saturates at 0).  Rust's `%` panics on a zero
  divisor, modelled by returning `none`.
* Paths are relative to the target directory (a directory-component list plus
  a file name); the choice of target/temp directory does not influence any
  relative path or file content.
* File contents are modelled structurally: the constant template text is not
  reproduced, but every value interpolated into a template (the relative
  detector import, the per-child import specifiers, lazy-vs-static choice,
  and the one-shot hydration flag) is recorded, so two structurally equal
  contents render to byte-identical files and vice versa.
* The file-system side effects (`create_dir_all`, `write_file`) are modelled
  by accumulating the created directories and the written `(path, content)`
  pairs in the state.
-/

namespace CreateTestApp

/-- A path relative to the target directory: directory components plus a file
name.  The tree root is `src/triangle.jsx`. -/
structure GenPath where
  dir : List String
  fname : String
deriving DecidableEq, Repr

/-- The fixed root module path `src/triangle.jsx`. -/
def rootPath : GenPath := ⟨["src"], "triangle.jsx"⟩

/-- Configuration for the generated `package.json` (struct `PackageJsonConfig`). -/
structure PackageJsonConfig where
  react_version : String
deriving DecidableEq, Repr

/-- The builder configuration (struct `TestAppBuilder`); the `target` field is
omitted because all modelled output is relative to it. -/
structure TestAppBuilder where
  module_count : Nat
  directories_count : Nat
  dynamic_import_count : Nat
  flatness : Nat
  package_json : Option PackageJsonConfig
deriving DecidableEq, Repr

/-- Checked `usize` subtraction: `none` models the overflow panic of `a - b`
in a checked build. -/
def checkedSub (a b : Nat) : Option Nat :=
  if b ≤ a then some (a - b) else none

/-- `fn decide(remaining, min_remaining_decisions) -> bool`.  The `none`
result models the panic of `%` on a zero divisor (unreachable here, as proved
below). -/
def decide (remaining min_remaining_decisions : Nat) : Option Bool :=
  if remaining = 0 then
    some false
  else if min_remaining_decisions ≤ remaining then
    some true
  else
    let urgentness := min_remaining_decisions / remaining
    if urgentness = 0 then none
    else some (min_remaining_decisions * 11 * 7 * 5 % urgentness == 0)

/-- `fn decide_early(remaining, min_remaining_decisions) -> bool`.  The `none`
result models the panic of `%` on a zero divisor (reachable: the divisor is
`min_remaining_decisions / remaining / remaining`). -/
def decide_early (remaining min_remaining_decisions : Nat) : Option Bool :=
  if remaining = 0 then
    some false
  else if min_remaining_decisions ≤ remaining then
    some true
  else
    let urgentness := min_remaining_decisions / remaining / remaining
    if urgentness = 0 then none
    else some (min_remaining_decisions * 11 * 7 * 5 % urgentness == 0)

/-- One child reference of a container module: the component name
(`A`/`B`/`C`), the import specifier interpolated into the template, and
whether it is rendered as a dynamic `React.lazy(() => import(..))` instead of
a static import. -/
structure ChildImport where
  name : String
  srcRef : String
  lazy : Bool
deriving DecidableEq, Repr

/-- The content written for one file, keeping every template-interpolated
value (see the module docstring). -/
inductive FileContent where
  /-- The leaf template, parameterized by the relative detector import. -/
  | leaf (relativeDetector : String) : FileContent
  /-- The container template: detector import, the three child references in
  order, and whether the one-shot hydration marker is emitted. -/
  | container (relativeDetector : String) (children : List ChildImport)
      (hydration : Bool) : FileContent
  /-- A constant bootstrap template, identified by its artifact name. -/
  | fixed (name : String) : FileContent
  /-- The `package.json` manifest, parameterized by the React version. -/
  | packageJson (reactVersion : String) : FileContent
deriving DecidableEq, Repr

/-- The mutable state of the generation loop in `build`. -/
structure LoopState where
  queue : List GenPath
  remainingModules : Nat
  remainingDirectories : Nat
  remainingDynamicImports : Nat
  isRoot : Bool
  modules : List GenPath
  files : List (GenPath × FileContent)
  dirs : List (List String)
deriving DecidableEq, Repr

/-- Result of running the generation loop with a given amount of fuel. -/
inductive LoopOut where
  | done (st : LoopState) : LoopOut
  | panicked : LoopOut
  | outOfFuel : LoopOut
deriving DecidableEq, Repr

/-- The relative import of `src/detector.jsx` from a file in directory `dir`.
Models the `detector_path.parent() == file.parent()` fast path and
`pathdiff::diff_paths` otherwise; every generated directory is nested below
`src`, so the diff is `dir.length - 1` `../` steps followed by
`detector.jsx`. -/
def relativeDetector (dir : List String) : String :=
  if dir = ["src"] then ("./detector.jsx")
  else String.join (List.replicate (dir.length - 1) "../") ++ "detector.jsx"

/-- `file.with_extension("")` on the generated names, which all end in
`.jsx`. -/
def stripJsx (s : String) : String := s.dropRight 4

/-- The file name of child `i`: `set_file_name(format!("{}_{}.jsx", base, i))`. -/
def childName (base : String) (i : Nat) : String :=
  base ++ "_" ++ toString i ++ ".jsx"

/-- One per-child dynamic-import decision: on `decide_early .. = true` the
dynamic-import budget is decremented (`remaining_dynamic_imports -= 1`). -/
def dynDecide (d m : Nat) : Option (Bool × Nat) :=
  match decide_early d m with
  | none => none
  | some true => some (true, d - 1)
  | some false => some (false, d)

/-- The three sequential per-child decisions of a container, with
`min_remaining_decisions = remaining_modules + (2 - i)` for `i = 0, 1, 2`
(`remaining_modules` already updated by the saturating subtraction). -/
def childImports (ip : String) (d rm : Nat) :
    Option (List ChildImport × Nat) :=
  match dynDecide d (rm + 2) with
  | none => none
  | some (f1, d1) =>
    match dynDecide d1 (rm + 1) with
    | none => none
    | some (f2, d2) =>
      match dynDecide d2 rm with
      | none => none
      | some (f3, d3) =>
        some ([⟨"A", ip ++ "1", f1⟩, ⟨"B", ip ++ "2", f2⟩, ⟨"C", ip ++ "3", f3⟩],
          d3)

/-- The leaf classification of a dequeued file (`rest` is the queue after the
pop): `remaining_modules == 0 || (!queue.is_empty() && (queue.len() +
remaining_modules) % (flatness + 1) == 0)`. -/
def leafTest (b : TestAppBuilder) (rm : Nat) (rest : List GenPath) : Bool :=
  rm == 0 || (!rest.isEmpty && (rest.length + rm) % (b.flatness + 1) == 0)

/-- Shared tail of the container branch: derive the three child paths under
`childDir` with base name `childBase`, enqueue them in order 1, 2, 3, apply
the saturating module-budget subtraction, and run the per-child
dynamic-import decisions feeding the container template.  `rd` and `ds` are
the directory budget and created-directory list as updated by the
subdirectory decision. -/
def expandChildren (file : GenPath) (rest : List GenPath) (st : LoopState)
    (childDir : List String) (childBase ip : String) (rd : Nat)
    (ds : List (List String)) : Option LoopState :=
  match childImports ip st.remainingDynamicImports (st.remainingModules - 3) with
  | none => none
  | some (cs, dyn) =>
    some { queue := rest ++ [⟨childDir, childName childBase 1⟩,
             ⟨childDir, childName childBase 2⟩, ⟨childDir, childName childBase 3⟩],
           remainingModules := st.remainingModules - 3,
           remainingDirectories := rd,
           remainingDynamicImports := dyn,
           isRoot := false,
           modules := st.modules ++ [file],
           files := st.files ++
             [(file, .container (relativeDetector file.dir) cs st.isRoot)],
           dirs := ds }

/-- The container branch of the loop body: subdirectory decision
(`decide(remaining_directories, remaining_modules / 3)`), then — with the
directory budget decremented and the subdirectory created on `true` — the
child expansion. -/
def containerStep (file : GenPath) (rest : List GenPath) (st : LoopState) :
    Option LoopState :=
  match decide st.remainingDirectories (st.remainingModules / 3) with
  | none => none
  | some inSub =>
    let base := stripJsx file.fname
    if inSub then
      expandChildren file rest st (file.dir ++ [base]) "triangle"
        ("./" ++ base ++ "/triangle_") (st.remainingDirectories - 1)
        (st.dirs ++ [file.dir ++ [base]])
    else
      expandChildren file rest st file.dir base ("./" ++ base ++ "_")
        st.remainingDirectories st.dirs

/-- One iteration of `while let Some(file) = queue.pop_front()`, after the
pop: `file` is the popped path and `rest` the remaining queue. -/
def step (b : TestAppBuilder) (file : GenPath) (rest : List GenPath)
    (st : LoopState) : Option LoopState :=
  if leafTest b st.remainingModules rest then
    some { st with queue := rest,
                   modules := st.modules ++ [file],
                   files := st.files ++ [(file, .leaf (relativeDetector file.dir))] }
  else containerStep file rest st

/-- Strictly decreasing measure of the loop: each leaf shortens the queue,
each container spends at least one module-budget unit. -/
def loopMeasure (st : LoopState) : Nat :=
  3 * st.remainingModules + st.queue.length

/-- The generation loop, fuel-indexed.  `loopMeasure` fuel is always enough,
as proved below. -/
def loopFuel (b : TestAppBuilder) : Nat → LoopState → LoopOut
  | 0, st => if st.queue.isEmpty then LoopOut.done st else LoopOut.outOfFuel
  | fuel + 1, st =>
    match st.queue with
    | [] => LoopOut.done st
    | file :: rest =>
      match step b file rest st with
      | none => LoopOut.panicked
      | some st' => loopFuel b fuel st'

/-- The state right before the generation loop: `remaining_modules =
module_count - 1`, the root is pushed, and `remaining_modules -= 1`; both
subtractions are checked `usize` subtractions. -/
def initState (b : TestAppBuilder) : Option LoopState :=
  match checkedSub b.module_count 1 with
  | none => none
  | some r0 =>
    match checkedSub r0 1 with
    | none => none
    | some r1 =>
      some { queue := [rootPath],
             remainingModules := r1,
             remainingDirectories := b.directories_count,
             remainingDynamicImports := b.dynamic_import_count,
             isRoot := true,
             modules := [],
             files := [],
             dirs := [] }

/-- Initialization plus the generation loop (`none` is the initialization
underflow panic). -/
def buildState (b : TestAppBuilder) : Option LoopOut :=
  (initState b).map (fun st => loopFuel b (loopMeasure st) st)

/-- The observable result of `build`: the ordered tree-module list (the
`TestApp.modules` field), all files written relative to the target, and all
directories created. -/
structure TestApp where
  modules : List GenPath
  files : List (GenPath × FileContent)
  dirs : List (List String)
deriving DecidableEq, Repr

/-- The fixed bootstrap files written after the tree, in write order, plus
the optional `package.json`. -/
def bootstrapFiles (b : TestAppBuilder) : List (GenPath × FileContent) :=
  [ (⟨["src"], "index.jsx"⟩, .fixed ("bootstrap file")),
    (⟨["src", "pages"], "page.jsx"⟩, .fixed ("bootstrap page")),
    (⟨["src", "pages"], "static.jsx"⟩, .fixed ("bootstrap static page")),
    (⟨["src", "app"], "page.jsx"⟩, .fixed ("bootstrap app page")),
    (⟨["src", "app", "client"], "detector.jsx"⟩, .fixed ("detector component")),
    (⟨["src", "app", "client"], "page.jsx"⟩, .fixed ("bootstrap app client page")),
    (⟨["src"], "layout.jsx"⟩, .fixed ("bootstrap layout")),
    (⟨["src"], "index.html"⟩, .fixed ("bootstrap html in root")),
    (⟨["public"], "index.html"⟩, .fixed ("bootstrap html")),
    (⟨[], "vite-server.mjs"⟩, .fixed ("vite node.js server")),
    (⟨["src"], "vite-entry-server.jsx"⟩, .fixed ("vite server entry")),
    (⟨["src"], "vite-entry-client.jsx"⟩, .fixed ("vite client entry")) ]
  ++ match b.package_json with
     | some pj => [(⟨[], "package.json"⟩, .packageJson pj.react_version)]
     | none => []

/-- The directories created outside the generation loop, after it. -/
def bootstrapDirs : List (List String) :=
  [["src", "pages"], ["src", "app", "app"], ["src", "app", "client"], ["public"]]

/-- `TestAppBuilder::build`, assembled: `none` models any panic (checked
underflow at initialization, or a zero divisor in `decide_early`). -/
def build (b : TestAppBuilder) : Option TestApp :=
  match buildState b with
  | some (LoopOut.done st) =>
    some { modules := st.modules,
           files := st.files ++ bootstrapFiles b,
           dirs := ["src"] :: st.dirs ++ bootstrapDirs }
  | _ => none

/-- Number of lazily (dynamically) imported children in a child list. -/
def lazyCount (cs : List ChildImport) : Nat :=
  (cs.filter (fun c => c.lazy)).length

/-- Total number of dynamic-import placements in a file list. -/
def countDyn (files : List (GenPath × FileContent)) : Nat :=
  (files.map (fun f =>
    match f.2 with
    | FileContent.container _ cs _ => lazyCount cs
    | _ => 0)).sum

/-- Number of container modules in a file list. -/
def containerCount (files : List (GenPath × FileContent)) : Nat :=
  (files.filter (fun f =>
    match f.2 with
    | FileContent.container _ _ _ => true
    | _ => false)).length

/-- Whether a content is the leaf template. -/
def isLeafContent : FileContent → Bool
  | FileContent.leaf _ => true
  | _ => false

/-- Whether the first file written is the root module rendered with the leaf
template. -/
def rootClassifiedLeaf (r : TestApp) : Bool :=
  match r.files.head? with
  | some (p, c) => p == rootPath && isLeafContent c
  | none => false

/-! ## Concrete configurations used as witnesses and counterexamples -/

/-- `module_count = 1`: the second initialization subtraction underflows. -/
def cfgOne : TestAppBuilder := ⟨1, 0, 0, 5, none⟩

/-- `module_count = 2`: the smallest configuration whose run completes. -/
def cfgTwo : TestAppBuilder := ⟨2, 0, 0, 5, none⟩

/-- A mid-sized configuration with directory and dynamic-import budgets. -/
def cfgTen : TestAppBuilder := ⟨10, 3, 2, 5, none⟩

/-- The loop state `initState cfgTen` produces. -/
def stTen : LoopState := ⟨[rootPath], 8, 3, 2, true, [], [], []⟩

/-- The loop state `initState cfgTwo` produces. -/
def stTwoInit : LoopState := ⟨[rootPath], 0, 0, 0, true, [], [], []⟩

/-- The final loop state of the `cfgTwo` run: the root alone, as a leaf. -/
def stTwoFinal : LoopState :=
  ⟨[], 0, 0, 0, true, [rootPath], [(rootPath, FileContent.leaf ("./detector.jsx"))], []⟩

/-- The full output of `build cfgTwo`. -/
def appTwo : TestApp :=
  ⟨[rootPath], (rootPath, FileContent.leaf ("./detector.jsx")) :: bootstrapFiles cfgTwo,
    ["src"] :: bootstrapDirs⟩

/-! ## Basic lemmas about the decision policy -/

theorem decide_early_zero (m : Nat) : decide_early 0 m = some false := by
  simp [decide_early]

theorem decide_early_true_pos {d m : Nat} (h : decide_early d m = some true) :
    d ≠ 0 := by
  intro hd
  rw [hd, decide_early_zero] at h
  cases h

theorem dynDecide_spec {d m : Nat} {flag : Bool} {d' : Nat}
    (h : dynDecide d m = some (flag, d')) :
    (if flag then 1 else 0) + d' = d := by
  unfold dynDecide at h
  split at h
  · cases h
  · next heq =>
    have hd := decide_early_true_pos heq
    cases h
    simp
    omega
  · cases h
    simp

theorem childImports_spec {ip : String} {d rm : Nat} {cs : List ChildImport}
    {d' : Nat} (h : childImports ip d rm = some (cs, d')) :
    lazyCount cs + d' = d := by
  unfold childImports at h
  split at h
  · cases h
  · next f1 d1 h1 =>
    split at h
    · cases h
    · next f2 d2 h2 =>
      split at h
      · cases h
      · next f3 d3 h3 =>
        have s1 := dynDecide_spec h1
        have s2 := dynDecide_spec h2
        have s3 := dynDecide_spec h3
        cases h
        cases f1 <;> cases f2 <;> cases f3 <;>
          simp_all [lazyCount, List.filter] <;> omega

/-! ## The loop body: case analysis -/

theorem leafTest_nil_zero {b : TestAppBuilder} {rm : Nat}
    (h : leafTest b rm [] = true) : rm = 0 := by
  simpa [leafTest] using h

theorem leafTest_false_pos {b : TestAppBuilder} {rm : Nat} {rest : List GenPath}
    (h : leafTest b rm rest = false) : rm ≠ 0 := by
  simp [leafTest] at h
  omega

/-- Everything a single loop iteration can do: both branches append the
dequeued file to `modules`; a leaf leaves the budgets alone (and is forced
when the queue has drained), a container spends at least one module-budget
unit, enqueues three children and balances the dynamic-import budget against
the lazy children it rendered. -/
theorem step_spec {b : TestAppBuilder} {file : GenPath} {rest : List GenPath}
    {st st' : LoopState} (h : step b file rest st = some st') :
    st'.modules = st.modules ++ [file] ∧
    ((st'.queue = rest ∧
      st'.remainingModules = st.remainingModules ∧
      st'.remainingDynamicImports = st.remainingDynamicImports ∧
      st'.files = st.files ++ [(file, FileContent.leaf (relativeDetector file.dir))] ∧
      (rest = [] → st.remainingModules = 0)) ∨
     (st.remainingModules ≠ 0 ∧
      st'.queue.length = rest.length + 3 ∧
      st'.remainingModules = st.remainingModules - 3 ∧
      ∃ cs,
        st'.files = st.files ++
          [(file, FileContent.container (relativeDetector file.dir) cs st.isRoot)] ∧
        lazyCount cs + st'.remainingDynamicImports = st.remainingDynamicImports)) := by
  unfold step at h
  split at h
  · next hleaf =>
    cases h
    refine ⟨rfl, Or.inl ⟨rfl, rfl, rfl, rfl, ?_⟩⟩
    intro hrest
    exact leafTest_nil_zero (hrest ▸ hleaf)
  · next hleaf =>
    have hrm : st.remainingModules ≠ 0 :=
      leafTest_false_pos (Bool.of_not_eq_true hleaf)
    unfold containerStep at h
    split at h
    · cases h
    · next inSub hdec =>
      have hexp : ∀ cd cb ip rd ds,
          expandChildren file rest st cd cb ip rd ds = some st' →
          st'.modules = st.modules ++ [file] ∧
          st.remainingModules ≠ 0 ∧
          st'.queue.length = rest.length + 3 ∧
          st'.remainingModules = st.remainingModules - 3 ∧
          ∃ cs,
            st'.files = st.files ++
              [(file, FileContent.container (relativeDetector file.dir) cs st.isRoot)] ∧
            lazyCount cs + st'.remainingDynamicImports = st.remainingDynamicImports := by
        intro cd cb ip rd ds hx
        unfold expandChildren at hx
        split at hx
        · cases hx
        · next cs dyn hci =>
          cases hx
          refine ⟨rfl, hrm, by simp, rfl, cs, rfl, ?_⟩
          simpa using childImports_spec hci
      split at h
      · obtain ⟨h1, _, h3, h4, h5⟩ := hexp _ _ _ _ _ h
        exact ⟨h1, Or.inr ⟨hrm, h3, h4, h5⟩⟩
      · obtain ⟨h1, _, h3, h4, h5⟩ := hexp _ _ _ _ _ h
        exact ⟨h1, Or.inr ⟨hrm, h3, h4, h5⟩⟩

/-! ## The loop: invariants and termination -/

theorem loopFuel_nil {b : TestAppBuilder} {st : LoopState} (h : st.queue = [])
    (fuel : Nat) : loopFuel b fuel st = LoopOut.done st := by
  cases fuel <;> simp [loopFuel, h]

theorem loopFuel_done_queue {b : TestAppBuilder} :
    ∀ fuel (st st₂ : LoopState), loopFuel b fuel st = LoopOut.done st₂ →
      st₂.queue = [] := by
  intro fuel
  induction fuel with
  | zero =>
    intro st st₂ h
    simp only [loopFuel] at h
    split at h
    · next hq => cases h; simpa using hq
    · cases h
  | succ n ih =>
    intro st st₂ h
    simp only [loopFuel] at h
    split at h
    · next hq => cases h; exact hq
    · next file rest hq =>
      split at h
      · cases h
      · next st' hs => exact ih st' st₂ h

/-- A property preserved by every successful loop iteration holds at the
final state of a completed run. -/
theorem loopFuel_invariant {b : TestAppBuilder} (P : LoopState → Prop)
    (hstep : ∀ file rest (st st' : LoopState), st.queue = file :: rest →
      P st → step b file rest st = some st' → P st') :
    ∀ fuel (st st₂ : LoopState), P st → loopFuel b fuel st = LoopOut.done st₂ →
      P st₂ := by
  intro fuel
  induction fuel with
  | zero =>
    intro st st₂ hP h
    simp only [loopFuel] at h
    split at h
    · cases h; exact hP
    · cases h
  | succ n ih =>
    intro st st₂ hP h
    simp only [loopFuel] at h
    split at h
    · cases h; exact hP
    · next file rest hq =>
      split at h
      · cases h
      · next st' hs => exact ih st' st₂ (hstep file rest st st' hq hP hs) h

/-- Each successful iteration strictly decreases the loop measure. -/
theorem step_measure_lt {b : TestAppBuilder} {file : GenPath}
    {rest : List GenPath} {st st' : LoopState} (hq : st.queue = file :: rest)
    (h : step b file rest st = some st') : loopMeasure st' < loopMeasure st := by
  have hlen : st.queue.length = rest.length + 1 := by rw [hq]; rfl
  obtain ⟨-, hcase⟩ := step_spec h
  unfold loopMeasure
  rcases hcase with ⟨h1, h2, -, -, -⟩ | ⟨h1, h2, h3, -⟩
  · rw [h1, h2, hlen]
    omega
  · rw [h2, h3, hlen]
    omega

/-- `loopMeasure` fuel is always enough: the loop never runs out of fuel. -/
theorem loopFuel_no_outOfFuel {b : TestAppBuilder} :
    ∀ fuel (st : LoopState), loopMeasure st ≤ fuel →
      loopFuel b fuel st ≠ LoopOut.outOfFuel := by
  intro fuel
  induction fuel with
  | zero =>
    intro st h
    have hq : st.queue = [] := by
      have := h
      unfold loopMeasure at this
      have : st.queue.length = 0 := by omega
      simpa using this
    rw [loopFuel_nil hq]
    simp
  | succ n ih =>
    intro st h
    simp only [loopFuel]
    split
    · simp
    · next file rest hq =>
      cases hs : step b file rest st with
      | none => simp
      | some st' =>
        apply ih
        have := step_measure_lt hq hs
        omega

/-! ## Initialization and counting lemmas -/

theorem initState_spec {b : TestAppBuilder} {st : LoopState}
    (h : initState b = some st) :
    2 ≤ b.module_count ∧
    st = ⟨[rootPath], b.module_count - 2, b.directories_count,
          b.dynamic_import_count, true, [], [], []⟩ := by
  unfold initState at h
  split at h
  · cases h
  · next r0 h0 =>
    split at h
    · cases h
    · next r1 h1 =>
      cases h
      unfold checkedSub at h0 h1
      split at h0
      · next hb =>
        cases h0
        split at h1
        · next hb1 =>
          cases h1
          refine ⟨by omega, ?_⟩
          have h2 : b.module_count - 1 - 1 = b.module_count - 2 := by omega
          rw [h2]
        · cases h1
      · cases h0

theorem containerCount_append (l1 l2 : List (GenPath × FileContent)) :
    containerCount (l1 ++ l2) = containerCount l1 + containerCount l2 := by
  simp [containerCount, List.filter_append]

theorem countDyn_append (l1 l2 : List (GenPath × FileContent)) :
    countDyn (l1 ++ l2) = countDyn l1 + countDyn l2 := by
  simp [countDyn]

theorem containerCount_bootstrap (b : TestAppBuilder) :
    containerCount (bootstrapFiles b) = 0 := by
  cases hp : b.package_json <;> simp [bootstrapFiles, hp, containerCount]

theorem countDyn_bootstrap (b : TestAppBuilder) :
    countDyn (bootstrapFiles b) = 0 := by
  cases hp : b.package_json <;> simp [bootstrapFiles, hp, countDyn]

theorem head_append_left {α : Type} {l l' : List α} {a : α}
    (h : l.head? = some a) : (l ++ l').head? = some a := by
  cases l with
  | nil => cases h
  | cons x xs => simpa using h

theorem loopFuel_succ_cons {b : TestAppBuilder} {st : LoopState}
    {file : GenPath} {rest : List GenPath} (hq : st.queue = file :: rest)
    (fuel : Nat) {st' : LoopState} (hs : step b file rest st = some st') :
    loopFuel b (fuel + 1) st = loopFuel b fuel st' := by
  simp only [loopFuel, hq, hs]

theorem loopFuel_succ_cons_none {b : TestAppBuilder} {st : LoopState}
    {file : GenPath} {rest : List GenPath} (hq : st.queue = file :: rest)
    (fuel : Nat) (hs : step b file rest st = none) :
    loopFuel b (fuel + 1) st = LoopOut.panicked := by
  simp only [loopFuel, hq, hs]

theorem initState_isSome_of_two {b : TestAppBuilder} (h : 2 ≤ b.module_count) :
    (initState b).isSome := by
  unfold initState checkedSub
  rw [if_pos (by omega : 1 ≤ b.module_count)]
  simp only
  rw [if_pos (by omega : 1 ≤ b.module_count - 1)]
  simp

theorem initState_none_of_one {b : TestAppBuilder} (h : b.module_count ≤ 1) :
    initState b = none := by
  unfold initState checkedSub
  rcases Nat.lt_or_ge b.module_count 1 with h1 | h1
  · rw [if_neg (by omega)]
  · rw [if_pos h1]
    simp only
    rw [if_neg (by omega)]

/-! ## The claims -/

/-- C3: `decide` returns `false` when `remaining = 0`; `true` when
`0 < remaining` and `minRemainingDecisions ≤ remaining`; and otherwise tests
`(minRemainingDecisions * 385) % urgency == 0` with
`urgency = minRemainingDecisions / remaining ≥ 1`, so the modulus never
divides by zero (the `none` branch is unreachable). -/
theorem decide_spec (r m : Nat) :
    (r = 0 → decide r m = some false) ∧
    (r ≠ 0 → m ≤ r → decide r m = some true) ∧
    (r ≠ 0 → r < m →
      1 ≤ m / r ∧ decide r m = some (m * 385 % (m / r) == 0)) := by
  refine ⟨?_, ?_, ?_⟩
  · intro h
    simp [decide, h]
  · intro h1 h2
    simp [decide, h1, h2]
  · intro h1 h2
    have hr : 0 < r := Nat.pos_of_ne_zero h1
    have hd : 1 ≤ m / r := (Nat.one_le_div_iff hr).mpr (le_of_lt h2)
    refine ⟨hd, ?_⟩
    have hne : ¬ m ≤ r := not_le.mpr h2
    have h385 : m * 11 * 7 * 5 = m * 385 := by ring
    simp only [decide, if_neg h1, if_neg hne, h385]
    rw [if_neg (by omega)]

/-- C3 witness: the three branches of `decide_spec` at concrete inputs. -/
theorem decide_spec_witness :
    decide 0 7 = some false ∧ decide 5 3 = some true ∧
      (1 ≤ 7 / 2 ∧ decide 2 7 = some (7 * 385 % (7 / 2) == 0)) :=
  ⟨(decide_spec 0 7).1 rfl,
   (decide_spec 5 3).2.1 (by decide) (by decide),
   (decide_spec 2 7).2.2 (by decide) (by decide)⟩

/-- C4: `decide_early` is not total: at `remaining = 2`,
`minRemainingDecisions = 3` the else-branch divisor
`3 / 2 / 2` is zero and the code divides by zero (modelled as `none`). -/
theorem decide_early_not_total :
    ∃ r m : Nat, 1 ≤ r ∧ r < m ∧ m / r / r = 0 ∧ decide_early r m = none :=
  ⟨2, 3, by decide, by decide, by decide, by decide⟩

/-- C5 counterexample: for `module_count = 10` the remaining-modules counter
before the first dequeue is 8, not `module_count - 1 = 9`: the root is
deducted twice (once at initialization, once after the enqueue). -/
theorem init_counter_counterexample :
    (initState cfgTen).map (fun st => st.remainingModules) ≠
      some (cfgTen.module_count - 1) := by
  decide

/-- C5 amended: immediately after the queue is seeded (root pushed and
`remaining_modules -= 1` executed), before the first dequeue, the
remaining-modules counter equals `module_count - 2`. -/
theorem init_counter (b : TestAppBuilder) (st : LoopState)
    (h : initState b = some st) :
    st.remainingModules = b.module_count - 2 ∧ 2 ≤ b.module_count := by
  obtain ⟨hmc, rfl⟩ := initState_spec h
  exact ⟨rfl, hmc⟩

/-- C5 witness: the amended statement at `module_count = 10`. -/
theorem init_counter_witness :
    stTen.remainingModules = cfgTen.module_count - 2 ∧ 2 ≤ cfgTen.module_count :=
  init_counter cfgTen stTen (by decide)

/-- C10: the initial module-counter arithmetic (`module_count - 1` followed by
one more decrement at the root enqueue) succeeds exactly when
`module_count ≥ 2`; for `module_count ≤ 1` the unsigned subtraction
underflows (`none`, a panic in checked builds). -/
theorem init_underflow (b : TestAppBuilder) :
    (2 ≤ b.module_count → (initState b).isSome) ∧
    (b.module_count ≤ 1 → initState b = none) :=
  ⟨initState_isSome_of_two, initState_none_of_one⟩

/-- C10 witness: `module_count = 10` initializes, `module_count = 1`
underflows. -/
theorem init_underflow_witness :
    (initState cfgTen).isSome ∧ initState cfgOne = none :=
  ⟨(init_underflow cfgTen).1 (by decide), (init_underflow cfgOne).2 (by decide)⟩

/-- C7: contrary to the `moduleCount = 1` scenario, `build` does not succeed
with a single leaf module: the initialization underflows
(`remaining_modules -= 1` on a counter already 0) and the run aborts. -/
theorem build_one_underflows (b : TestAppBuilder) (h : b.module_count = 1) :
    build b = none := by
  have hinit : initState b = none := initState_none_of_one (by omega)
  unfold build buildState
  rw [hinit]
  rfl

/-- C7 witness: the evaluation at the failing input `module_count = 1`. -/
theorem build_one_underflows_witness : build cfgOne = none :=
  build_one_underflows cfgOne (by decide)

/-- C1: `build` is deterministic: for a fixed configuration, two completed
invocations agree on the ordered modules list, on every written file (same
relative paths, same content), and on the created directories. -/
theorem build_deterministic (b : TestAppBuilder) (r1 r2 : TestApp)
    (h1 : build b = some r1) (h2 : build b = some r2) :
    r1.modules = r2.modules ∧ r1.files = r2.files ∧ r1.dirs = r2.dirs := by
  rw [h1] at h2
  cases h2
  exact ⟨rfl, rfl, rfl⟩

/-- C1 witness: a completed run at `module_count = 2`. -/
theorem build_deterministic_witness :
    build cfgTwo = some appTwo ∧
      (appTwo.modules = appTwo.modules ∧ appTwo.files = appTwo.files ∧
        appTwo.dirs = appTwo.dirs) :=
  ⟨rfl, build_deterministic cfgTwo appTwo appTwo rfl rfl⟩

/-- C9: the generation loop always drains in finitely many iterations:
`loopMeasure` (which every iteration strictly decreases, leaves by shortening
the queue and containers by spending module budget) bounds the iteration
count, so the loop never exhausts that much fuel, and no `build` run ends in
fuel exhaustion. -/
theorem queue_drains (b : TestAppBuilder) (st : LoopState) (fuel : Nat)
    (out : LoopOut) (h1 : loopMeasure st ≤ fuel)
    (h2 : buildState b = some out) :
    loopFuel b fuel st ≠ LoopOut.outOfFuel ∧ out ≠ LoopOut.outOfFuel := by
  refine ⟨loopFuel_no_outOfFuel fuel st h1, ?_⟩
  unfold buildState at h2
  cases hi : initState b with
  | none => rw [hi] at h2; cases h2
  | some st0 =>
    rw [hi] at h2
    simp only [Option.map_some'] at h2
    cases h2
    exact loopFuel_no_outOfFuel _ st0 le_rfl

/-- C9 witness: the seeded `cfgTwo` state drains within its measure, and the
`cfgTwo` run ends in `done`. -/
theorem queue_drains_witness :
    loopFuel cfgTwo 1 stTwoInit ≠ LoopOut.outOfFuel ∧
      LoopOut.done stTwoFinal ≠ LoopOut.outOfFuel :=
  queue_drains cfgTwo stTwoInit 1 (LoopOut.done stTwoFinal) (by decide) (by decide)

/-- C8: in every completed run the number of dynamic-import placements is at
most `dynamic_import_count`; the counter is only decremented right after
`decide_early` returns `true`, and `decide_early` returns `false` whenever
the counter is 0, so it never underflows. -/
theorem dynamic_import_budget (b : TestAppBuilder) (r : TestApp) (m : Nat)
    (h : build b = some r) :
    countDyn r.files ≤ b.dynamic_import_count ∧
      decide_early 0 m = some false := by
  refine ⟨?_, decide_early_zero m⟩
  unfold build at h
  split at h
  · next st hbs =>
    cases h
    unfold buildState at hbs
    cases hi : initState b with
    | none => rw [hi] at hbs; cases hbs
    | some st0 =>
      rw [hi] at hbs
      simp only [Option.map_some', Option.some.injEq] at hbs
      obtain ⟨hmc, rfl⟩ := initState_spec hi
      have hP : countDyn st.files + st.remainingDynamicImports =
          b.dynamic_import_count := by
        refine loopFuel_invariant
          (fun s => countDyn s.files + s.remainingDynamicImports =
            b.dynamic_import_count) ?_ _ _ _ ?_ hbs
        · intro file rest s s' hq hPs hs
          obtain ⟨-, hcase⟩ := step_spec hs
          rcases hcase with ⟨-, -, hdyn, hfiles, -⟩ | ⟨-, -, -, cs, hfiles, hdyn⟩
          · rw [hfiles, countDyn_append, hdyn]
            simpa [countDyn] using hPs
          · rw [hfiles, countDyn_append]
            simp only [countDyn, List.map_cons, List.map_nil, List.sum_cons,
              List.sum_nil] at *
            omega
        · simp [countDyn]
      simp only [countDyn_append, countDyn_bootstrap]
      omega
  · cases h

/-- C8 witness: the completed `cfgTwo` run places no dynamic import within
its zero budget. -/
theorem dynamic_import_budget_witness :
    countDyn appTwo.files ≤ cfgTwo.dynamic_import_count ∧
      decide_early 0 7 = some false :=
  dynamic_import_budget cfgTwo appTwo 7 rfl

/-- C2: every completed run creates exactly `1 + 3 × (number of Container
nodes)` tree modules, and this total is within 2 of `module_count`. -/
theorem module_budget (b : TestAppBuilder) (r : TestApp) (h : build b = some r) :
    r.modules.length = 1 + 3 * containerCount r.files ∧
    r.modules.length ≤ b.module_count + 2 ∧
    b.module_count ≤ r.modules.length + 2 := by
  unfold build at h
  split at h
  · next st hbs =>
    cases h
    unfold buildState at hbs
    cases hi : initState b with
    | none => rw [hi] at hbs; cases hbs
    | some st0 =>
      rw [hi] at hbs
      simp only [Option.map_some', Option.some.injEq] at hbs
      obtain ⟨hmc, rfl⟩ := initState_spec hi
      have hqe : st.queue = [] := loopFuel_done_queue _ _ _ hbs
      have hP : (st.modules.length + st.queue.length =
            1 + 3 * containerCount st.files) ∧
          (st.queue = [] → st.remainingModules = 0) ∧
          st.remainingModules + 3 * containerCount st.files ≤ b.module_count ∧
          b.module_count ≤ st.remainingModules + 3 * containerCount st.files + 2 ∧
          (0 < st.remainingModules →
            st.remainingModules + 3 * containerCount st.files + 2 =
              b.module_count) := by
        refine loopFuel_invariant (fun s =>
            (s.modules.length + s.queue.length =
              1 + 3 * containerCount s.files) ∧
            (s.queue = [] → s.remainingModules = 0) ∧
            s.remainingModules + 3 * containerCount s.files ≤ b.module_count ∧
            b.module_count ≤
              s.remainingModules + 3 * containerCount s.files + 2 ∧
            (0 < s.remainingModules →
              s.remainingModules + 3 * containerCount s.files + 2 =
                b.module_count)) ?_ _ _ _ ?_ hbs
        · intro file rest s s' hq hPs hs
          obtain ⟨hm, hcase⟩ := step_spec hs
          have hql : s.queue.length = rest.length + 1 := by rw [hq]; rfl
          obtain ⟨hs1, hs2, hs3, hs4, hs5⟩ := hPs
          have hml : s'.modules.length = s.modules.length + 1 := by
            rw [hm]; simp
          rcases hcase with ⟨hq', hrm, -, hfiles, hforce⟩ |
            ⟨hrm0, hql', hrm, cs, hfiles, -⟩
          · have hcc : containerCount s'.files = containerCount s.files := by
              rw [hfiles, containerCount_append]
              simp [containerCount]
            refine ⟨?_, ?_, ?_, ?_, ?_⟩
            · rw [hml, hcc, hq']; omega
            · intro hnil
              rw [hq'] at hnil
              rw [hrm]
              exact hforce hnil
            · rw [hrm, hcc]; exact hs3
            · rw [hrm, hcc]; exact hs4
            · rw [hrm, hcc]; exact hs5
          · have hcc : containerCount s'.files = containerCount s.files + 1 := by
              rw [hfiles, containerCount_append]
              simp [containerCount]
            have hexact := hs5 (Nat.pos_of_ne_zero hrm0)
            refine ⟨?_, ?_, ?_, ?_, ?_⟩
            · rw [hml, hcc, hql']; omega
            · intro hnil
              rw [hnil] at hql'
              simp at hql'
            · rw [hrm, hcc]; omega
            · rw [hrm, hcc]; omega
            · rw [hrm, hcc]; intro hpos; omega
        · refine ⟨?_, ?_, ?_, ?_, ?_⟩
          · simp [containerCount]
          · intro hnil; simp at hnil
          · simp [containerCount]
          · simp [containerCount]; omega
          · intro hpos; simp [containerCount]; omega
      obtain ⟨hsum, hzero, hub, hlb, -⟩ := hP
      have hrm0 : st.remainingModules = 0 := hzero hqe
      rw [hqe] at hsum
      simp only [List.length_nil, Nat.add_zero] at hsum
      refine ⟨?_, ?_, ?_⟩ <;>
        simp only [containerCount_append, containerCount_bootstrap] <;>
        omega
  · cases h

/-- C2 witness: the completed `cfgTwo` run: 1 module, 0 containers. -/
theorem module_budget_witness :
    appTwo.modules.length = 1 + 3 * containerCount appTwo.files ∧
    appTwo.modules.length ≤ cfgTwo.module_count + 2 ∧
    cfgTwo.module_count ≤ appTwo.modules.length + 2 :=
  module_budget cfgTwo appTwo rfl

/-- C6 counterexample: at `module_count = 2` (which is not 1) the run
completes and the root module IS classified as a Leaf, refuting "never a
Leaf unless module_count == 1". -/
theorem root_leaf_at_two :
    (build cfgTwo).map rootClassifiedLeaf = some true ∧
      cfgTwo.module_count ≠ 1 := by
  decide

/-- C6 amended: in every completed run the root module is at the fixed path
`src/triangle.jsx`, it is the first module created and the first file
written, and it is classified Leaf exactly when `module_count = 2`
(`module_count = 1` runs abort before the loop, so the root is never a Leaf
unless `module_count = 2`). -/
theorem root_fixed_first (b : TestAppBuilder) (r : TestApp)
    (h : build b = some r) :
    r.modules.head? = some rootPath ∧
    (∃ c, r.files.head? = some (rootPath, c)) ∧
    (rootClassifiedLeaf r = true ↔ b.module_count = 2) := by
  unfold build at h
  split at h
  · next st hbs =>
    cases h
    unfold buildState at hbs
    cases hi : initState b with
    | none => rw [hi] at hbs; cases hbs
    | some st0 =>
      rw [hi] at hbs
      simp only [Option.map_some', Option.some.injEq] at hbs
      obtain ⟨hmc, hst0⟩ := initState_spec hi
      have hq0 : st0.queue = [rootPath] := by rw [hst0]
      have hrm0 : st0.remainingModules = b.module_count - 2 := by rw [hst0]
      have hmod0 : st0.modules = [] := by rw [hst0]
      have hfiles0 : st0.files = [] := by rw [hst0]
      have hroot0 : st0.isRoot = true := by rw [hst0]
      have hμ : loopMeasure st0 = 3 * st0.remainingModules + 1 := by
        unfold loopMeasure
        rw [hq0]
        rfl
      rw [hμ] at hbs
      cases hs : step b rootPath [] st0 with
      | none =>
        rw [loopFuel_succ_cons_none hq0 (3 * st0.remainingModules) hs] at hbs
        cases hbs
      | some st1 =>
        rw [loopFuel_succ_cons hq0 (3 * st0.remainingModules) hs] at hbs
        obtain ⟨hm1, hcase⟩ := step_spec hs
        rcases hcase with ⟨hq1, -, -, hf1, hforce⟩ |
          ⟨hrm0ne, -, -, cs, hf1, -⟩
        · -- the root is a leaf: forced by remaining_modules = 0, so mc = 2
          have hrmz : st0.remainingModules = 0 := hforce rfl
          have hmc2 : b.module_count = 2 := by
            rw [hrm0] at hrmz
            omega
          rw [loopFuel_nil hq1] at hbs
          injection hbs with hbs'
          subst hbs'
          have hmods : st1.modules = [rootPath] := by
            rw [hm1, hmod0]
            rfl
          have hfs : st1.files =
              [(rootPath, FileContent.leaf (relativeDetector rootPath.dir))] := by
            rw [hf1, hfiles0]
            rfl
          refine ⟨?_, ?_, ?_⟩
          · show (st1.modules).head? = some rootPath
            rw [hmods]
            rfl
          · refine ⟨FileContent.leaf (relativeDetector rootPath.dir), ?_⟩
            show (st1.files ++ bootstrapFiles b).head? = _
            rw [hfs]
            rfl
          · have hh : (st1.files ++ bootstrapFiles b).head? =
                some (rootPath, FileContent.leaf (relativeDetector rootPath.dir)) := by
              rw [hfs]
              rfl
            simp [rootClassifiedLeaf, hh, isLeafContent, hmc2]
        · -- the root is a container: remaining_modules ≠ 0, so mc ≥ 3
          have hmcne : b.module_count ≠ 2 := by
            rw [hrm0] at hrm0ne
            omega
          have hP : st.modules.head? = some rootPath ∧
              ∃ c, st.files.head? = some (rootPath, c) ∧
                isLeafContent c = false := by
            refine loopFuel_invariant (fun s =>
                s.modules.head? = some rootPath ∧
                ∃ c, s.files.head? = some (rootPath, c) ∧
                  isLeafContent c = false) ?_ _ _ _ ?_ hbs
            · intro file rest s s' hq hPs hs'
              obtain ⟨hm', hcase'⟩ := step_spec hs'
              obtain ⟨hPm, c0, hPf, hPl⟩ := hPs
              refine ⟨?_, c0, ?_, hPl⟩
              · rw [hm']
                exact head_append_left hPm
              · rcases hcase' with ⟨-, -, -, hf', -⟩ | ⟨-, -, -, cs', hf', -⟩ <;>
                  rw [hf'] <;> exact head_append_left hPf
            · refine ⟨?_, ?_⟩
              · rw [hm1, hmod0]
                rfl
              · refine ⟨FileContent.container (relativeDetector rootPath.dir) cs
                  st0.isRoot, ?_, rfl⟩
                rw [hf1, hfiles0]
                rfl
          obtain ⟨hPm, c0, hPf, hPl⟩ := hP
          have hh : (st.files ++ bootstrapFiles b).head? = some (rootPath, c0) :=
            head_append_left hPf
          refine ⟨hPm, ⟨c0, hh⟩, ?_⟩
          simp [rootClassifiedLeaf, hh, hPl, hmcne]
  · cases h

/-- C6 witness: the amended statement at the completed `cfgTwo` run. -/
theorem root_fixed_first_witness :
    appTwo.modules.head? = some rootPath ∧
    (∃ c, appTwo.files.head? = some (rootPath, c)) ∧
    (rootClassifiedLeaf appTwo = true ↔ cfgTwo.module_count = 2) :=
  root_fixed_first cfgTwo appTwo rfl

end CreateTestApp
